import Mathlib

/-!
Shallow embedding of the game-logic layer of `src/main.rs` (a physics-driven
falling-block puzzle game built on bevy + rapier).

Modelling conventions:
* `f32` values that the game logic computes with (positions, forces, health)
  are modelled as `ℚ`; the engine-owned quantities (positions, sleep flags)
  are inputs to each system.
* bevy `Entity` handles are modelled as natural numbers, allocated by a
  counter threaded through the spawning functions.
* A bevy query joined with the rapier `RigidBodySet` is modelled as an
  association list `List (Entity × Option RigidBody)`: the `Option` is `none`
  when `rigid_bodies.get(handle)` fails; an entity absent from the list models
  a failing `block_query.get(entity)`.
* Randomness (`TetrominoKind::random`) is modelled by passing the chosen kind
  as an explicit parameter.
* Rendering-only state (sprites, colors, the camera entity, the health bar)
  is omitted: it is read-only with respect to the `Game` resource.
-/

unseal Rat.mul Rat.inv Rat.sub Rat.add

namespace NewtonianTetris

abbrev Entity := ℕ

def BLOCK_PX_SIZE : ℚ := 30

def FLOOR_BLOCK_HEIGHT : ℚ := 2

def MOVEMENT_FORCE : ℚ := 20

def TORQUE : ℚ := 20

/-- The `Stats` struct: running counters of the game. -/
structure Stats where
  generated_blocks : ℤ
  cleared_blocks : ℤ
  lost_blocks : ℤ
  lost_tetromino : Bool
deriving DecidableEq, Repr

/-- `Stats::default()` (all counters zero, flag false). -/
def Stats.default : Stats := ⟨0, 0, 0, false⟩

/-- `Stats::health`, translated branch for branch from the source. -/
def Stats.health (s : Stats) : ℚ :=
  if s.lost_tetromino then 0
  else if s.cleared_blocks = 0 then
    if s.lost_blocks > 0 then 0 else 1
  else
    1 - (s.lost_blocks : ℚ) / (s.cleared_blocks : ℚ)

/-- The `Game` resource (rendering-only fields omitted). -/
structure Game where
  n_lanes : ℕ
  n_rows : ℕ
  stats : Stats
  current_tetromino_blocks : Finset Entity
  current_tetromino_joints : List Entity
deriving DecidableEq

def Game.floor_y (g : Game) : ℚ := -(g.n_rows : ℚ) * (1 / 2)

def Game.left_wall_x (g : Game) : ℚ := -(g.n_lanes : ℚ) * (1 / 2)

/-- `Game::default()`. -/
def Game.default : Game := ⟨10, 20, Stats.default, ∅, []⟩

inductive TetrominoKind where
  | I | O | T | J | L | S | Z
deriving DecidableEq, Repr

structure TetrominoLayout where
  coords : List (ℤ × ℤ)
  joints : List (ℕ × ℕ)
deriving DecidableEq

/-- `TetrominoKind::layout`, copied shape for shape. -/
def TetrominoKind.layout : TetrominoKind → TetrominoLayout
  | .I => ⟨[(1, 1), (1, 0), (1, -1), (1, -2)], [(0, 1), (1, 2), (2, 3)]⟩
  | .O => ⟨[(0, 0), (1, 0), (1, -1), (0, -1)], [(0, 1), (1, 2), (2, 3), (1, 0)]⟩
  | .T => ⟨[(0, 0), (1, 0), (2, 0), (1, -1)], [(0, 1), (1, 2), (1, 3)]⟩
  | .J => ⟨[(1, 0), (1, -1), (1, -2), (0, -2)], [(0, 1), (1, 2), (2, 3)]⟩
  | .L => ⟨[(1, 0), (1, -1), (1, -2), (2, -2)], [(0, 1), (1, 2), (2, 3)]⟩
  | .S => ⟨[(0, -1), (1, -1), (1, 0), (2, 0)], [(0, 1), (1, 2), (2, 3)]⟩
  | .Z => ⟨[(0, 0), (1, 0), (1, -1), (2, -1)], [(0, 1), (1, 2), (2, 3)]⟩

/-- The slice of a rapier `RigidBody` the game logic reads: the sleep flag
(`is_sleeping`) and the vertical coordinate `position().translation.vector.y`. -/
structure RigidBody where
  sleeping : Bool
  y : ℚ
deriving DecidableEq, Repr

/-- `block_query.get(e).ok().and_then(|c| rigid_bodies.get(c.handle()))`. -/
def rb_lookup (q : List (Entity × Option RigidBody)) (e : Entity) : Option RigidBody :=
  (q.find? (fun p => p.1 == e)).bind Prod.snd

/-- One block's contribution to the sleep test:
`.map(RigidBody::is_sleeping).unwrap_or(false)`. -/
def block_sleeping (q : List (Entity × Option RigidBody)) (e : Entity) : Bool :=
  ((rb_lookup q e).map RigidBody.sleeping).getD false

/-- `game.current_tetromino_blocks.iter().all(...)` in
`tetromino_sleep_detection`. -/
def all_blocks_sleeping (game : Game) (q : List (Entity × Option RigidBody)) : Bool :=
  decide (∀ e ∈ game.current_tetromino_blocks, block_sleeping q e = true)

/-- The world position computed in `spawn_block` (center of the block). -/
def spawn_block_pos (game : Game) (lane row : ℤ) : ℚ × ℚ :=
  (game.left_wall_x + (lane : ℚ) + 1 / 2, game.floor_y + (row : ℚ) + 1 / 2)

/-- The result of `spawn_tetromino`: the updated `Game`, the next fresh
entity id, and the create requests issued to the engine (block entity with
its world position; joint entity with the two joined block entities and the
two local anchors). -/
structure SpawnOut where
  game : Game
  next : Entity
  block_cmds : List (Entity × ℚ × ℚ)
  joint_cmds : List (Entity × Entity × Entity × (ℚ × ℚ) × (ℚ × ℚ))
deriving DecidableEq

/-- `spawn_tetromino` (the random kind is a parameter, entity ids are
allocated from `next`). -/
def spawn_tetromino (game : Game) (kind : TetrominoKind) (next : Entity) : SpawnOut :=
  let l := kind.layout
  let block_cmds := l.coords.enum.map (fun p =>
    let lane := (game.n_lanes : ℤ) / 2 - 1 + p.2.1
    let row := (game.n_rows : ℤ) - 1 + p.2.2
    (next + p.1, spawn_block_pos game lane row))
  let block_entities := block_cmds.map Prod.fst
  let joint_cmds := l.joints.enum.map (fun p =>
    let ci := l.coords.getD p.2.1 (0, 0)
    let cj := l.coords.getD p.2.2 (0, 0)
    let x_dir : ℚ := (cj.1 : ℚ) - (ci.1 : ℚ)
    let y_dir : ℚ := (cj.2 : ℚ) - (ci.2 : ℚ)
    (next + block_entities.length + p.1,
     block_entities.getD p.2.1 0, block_entities.getD p.2.2 0,
     (x_dir * (1 / 2), y_dir * (1 / 2)), (x_dir * (-(1 / 2)), y_dir * (-(1 / 2)))))
  let joint_entities := joint_cmds.map Prod.fst
  ⟨{ game with
      stats := { game.stats with
        generated_blocks := game.stats.generated_blocks + (block_entities.length : ℤ) },
      current_tetromino_blocks := block_entities.toFinset,
      current_tetromino_joints := joint_entities },
   next + block_entities.length + joint_entities.length,
   block_cmds, joint_cmds⟩

/-- The four key states read by `tetromino_movement`. -/
structure InputState where
  left : Bool
  right : Bool
  key_a : Bool
  key_d : Bool
deriving DecidableEq

/-- `input.pressed(Right) as i8 - input.pressed(Left) as i8`. -/
def lateral_movement (input : InputState) : ℤ :=
  (if input.right then 1 else 0) - (if input.left then 1 else 0)

/-- `input.pressed(A) as i8 - input.pressed(D) as i8`. -/
def torque_input (input : InputState) : ℤ :=
  (if input.key_a then 1 else 0) - (if input.key_d then 1 else 0)

/-- `tetromino_movement`, observed per entity: what force and torque the loop
body applies to entity `e` on this tick (`none` = no call issued). -/
def tetromino_movement (input : InputState) (game : Game)
    (q : List (Entity × Option RigidBody)) (e : Entity) : Option (ℚ × ℚ) × Option ℚ :=
  if e ∈ game.current_tetromino_blocks then
    match rb_lookup q e with
    | some _ =>
      ((if lateral_movement input ≠ 0 then
          some ((lateral_movement input : ℚ) * MOVEMENT_FORCE, 0) else none),
       (if torque_input input ≠ 0 then
          some ((torque_input input : ℚ) * TORQUE) else none))
    | none => (none, none)
  else (none, none)

/-- The row index computed in `clear_filled_rows`:
`(rigid_body.position().translation.vector.y - floor_y).floor() as i32`. -/
def rowOf (game : Game) (rb : RigidBody) : ℤ := ⌊rb.y - game.floor_y⌋

/-- Loop body of the bucketing phase of `clear_filled_rows`. -/
def bucketStep (game : Game) (buckets : List (List Entity))
    (p : Entity × Option RigidBody) : List (List Entity) :=
  match p.2 with
  | none => buckets
  | some rb =>
    if rb.sleeping = false then buckets
    else
      let row := rowOf game rb
      if 0 ≤ row ∧ row < (game.n_rows : ℤ) then
        buckets.set row.toNat (buckets.getD row.toNat [] ++ [p.1])
      else buckets

/-- The `blocks_per_row` vector built by `clear_filled_rows`. -/
def blocks_per_row (game : Game) (q : List (Entity × Option RigidBody)) :
    List (List Entity) :=
  q.foldl (bucketStep game) (List.replicate game.n_rows [])

/-- Loop body of the clearing phase of `clear_filled_rows`. -/
def clearStep (acc : Game × List Entity) (row_blocks : List Entity) :
    Game × List Entity :=
  if row_blocks.length = acc.1.n_lanes then
    ({ acc.1 with stats := { acc.1.stats with
        cleared_blocks := acc.1.stats.cleared_blocks + (acc.1.n_lanes : ℤ) } },
     acc.2 ++ row_blocks)
  else acc

/-- `clear_filled_rows`: returns the updated game and the list of despawned
block entities. -/
def clear_filled_rows (game : Game) (q : List (Entity × Option RigidBody)) :
    Game × List Entity :=
  (blocks_per_row game q).foldl clearStep (game, [])

/-- Loop body of `block_death_detection` for one block, given the
precomputed `outside_limit`. -/
def deathStep (limit : ℚ) (acc : Game × List Entity) (p : Entity × ℚ) :
    Game × List Entity :=
  if p.2 < limit then
    let stats1 :=
      if p.1 ∈ acc.1.current_tetromino_blocks then
        { acc.1.stats with lost_tetromino := true }
      else acc.1.stats
    ({ acc.1 with stats := { stats1 with lost_blocks := stats1.lost_blocks + 1 } },
     acc.2 ++ [p.1])
  else acc

/-- `block_death_detection`: `projections` are the `OrthographicProjection`
bottoms of the camera query, `block_ys` the `(Entity, Transform)` query
restricted to its vertical coordinate. Returns the updated game and the
despawned block entities. -/
def block_death_detection (game : Game) (projections : List ℚ)
    (block_ys : List (Entity × ℚ)) : Game × List Entity :=
  projections.foldl
    (fun acc bottom => block_ys.foldl (deathStep (bottom - BLOCK_PX_SIZE * 2)) acc)
    (game, [])

/-- The result of `tetromino_sleep_detection`: the updated game, the despawn
commands issued for the piece's joints and for cleared blocks, whether
`spawn_tetromino` was invoked, and the entity allocator. -/
structure SleepOut where
  game : Game
  joint_despawns : List Entity
  cleared_despawns : List Entity
  spawned : Bool
  next : Entity
deriving DecidableEq

/-- `tetromino_sleep_detection`. -/
def tetromino_sleep_detection (game : Game) (q : List (Entity × Option RigidBody))
    (kind : TetrominoKind) (next : Entity) : SleepOut :=
  if all_blocks_sleeping game q then
    let joint_despawns := game.current_tetromino_joints
    let c := clear_filled_rows game q
    if c.1.stats.health > 0 then
      let s := spawn_tetromino c.1 kind next
      ⟨s.game, joint_despawns, c.2, true, s.next⟩
    else
      ⟨c.1, joint_despawns, c.2, false, next⟩
  else ⟨game, [], [], false, next⟩

/-- One simulation tick as it affects the `Game` resource:
`tetromino_movement` and `update_health_bar` take `Res<Game>` (read-only), so
the per-tick evolution of `Game` is `block_death_detection` followed by
`tetromino_sleep_detection`. -/
def game_tick (projections : List ℚ) (block_ys : List (Entity × ℚ))
    (q : List (Entity × Option RigidBody)) (kind : TetrominoKind)
    (g : Game) (next : Entity) : Game × Entity :=
  let d := block_death_detection g projections block_ys
  let s := tetromino_sleep_detection d.1 q kind next
  (s.game, s.next)

/-! ### Derived observations used to state the claims -/

/-- The blocks counted toward row `r` by `clear_filled_rows`: entities whose
rigid body resolves, is sleeping, and whose computed row index is `r`. -/
def resting_row (game : Game) (r : ℕ) (p : Entity × Option RigidBody) : Bool :=
  match p.2 with
  | some rb => rb.sleeping && (rowOf game rb == (r : ℤ))
  | none => false

/-- The entities of the query that rest in row `r`. -/
def restingInRow (game : Game) (q : List (Entity × Option RigidBody)) (r : ℕ) :
    List Entity :=
  (q.filter (resting_row game r)).map Prod.fst

/-- Number of rows cleared in one pass. -/
def fullRowCount (game : Game) (q : List (Entity × Option RigidBody)) : ℕ :=
  (blocks_per_row game q).countP (fun b => decide (b.length = game.n_lanes))

/-! ### Helper lemmas -/

lemma block_sleeping_iff (q : List (Entity × Option RigidBody)) (e : Entity) :
    block_sleeping q e = true ↔
      ∃ rb, rb_lookup q e = some rb ∧ rb.sleeping = true := by
  unfold block_sleeping
  cases h : rb_lookup q e <;> simp [h]

lemma all_blocks_sleeping_iff (game : Game) (q : List (Entity × Option RigidBody)) :
    all_blocks_sleeping game q = true ↔
      ∀ e ∈ game.current_tetromino_blocks,
        ∃ rb, rb_lookup q e = some rb ∧ rb.sleeping = true := by
  unfold all_blocks_sleeping
  rw [decide_eq_true_iff]
  constructor
  · intro h e he
    exact (block_sleeping_iff q e).mp (h e he)
  · intro h e he
    exact (block_sleeping_iff q e).mpr (h e he)

lemma snd_eq_of_nodup_fst {α β : Type} {l : List (α × β)} {e : α} {x y : β}
    (hnd : (l.map Prod.fst).Nodup) (hx : (e, x) ∈ l) (hy : (e, y) ∈ l) : x = y := by
  induction l with
  | nil => cases hx
  | cons p l ih =>
    rw [List.map_cons, List.nodup_cons] at hnd
    rcases List.mem_cons.mp hx with hx1 | hx1
    · rcases List.mem_cons.mp hy with hy1 | hy1
      · rw [← hx1] at hy1
        exact (Prod.mk.injEq _ _ _ _ ▸ hy1.symm).2
      · exact absurd (List.mem_map.mpr ⟨(e, y), hy1, by rw [← hx1]⟩) hnd.1
    · rcases List.mem_cons.mp hy with hy1 | hy1
      · exact absurd (List.mem_map.mpr ⟨(e, x), hx1, by rw [← hy1]⟩) hnd.1
      · exact ih hnd.2 hx1 hy1

lemma getD_set_self {l : List (List Entity)} {i : ℕ} (h : i < l.length)
    (a : List Entity) : (l.set i a).getD i [] = a := by
  rw [List.getD_eq_getElem?_getD, List.getElem?_set_self (by omega)]
  rfl

lemma getD_set_ne {l : List (List Entity)} {i j : ℕ} (h : i ≠ j)
    (a : List Entity) : (l.set i a).getD j [] = l.getD j [] := by
  rw [List.getD_eq_getElem?_getD, List.getElem?_set_ne h, ← List.getD_eq_getElem?_getD]

lemma bucketStep_length (game : Game) (buckets : List (List Entity))
    (p : Entity × Option RigidBody) :
    (bucketStep game buckets p).length = buckets.length := by
  unfold bucketStep
  rcases p with ⟨e, o⟩
  cases o with
  | none => rfl
  | some rb =>
    by_cases hs : rb.sleeping = false <;> simp [hs]
    by_cases hin : 0 ≤ rowOf game rb ∧ rowOf game rb < (game.n_rows : ℤ) <;>
      simp [hin]

lemma foldl_bucketStep_length (game : Game) (q : List (Entity × Option RigidBody)) :
    ∀ init : List (List Entity),
      (q.foldl (bucketStep game) init).length = init.length := by
  induction q with
  | nil => intro init; rfl
  | cons p q ih =>
    intro init
    rw [List.foldl_cons, ih, bucketStep_length]

lemma blocks_per_row_length (game : Game) (q : List (Entity × Option RigidBody)) :
    (blocks_per_row game q).length = game.n_rows := by
  unfold blocks_per_row
  rw [foldl_bucketStep_length, List.length_replicate]

lemma foldl_bucketStep_getD (game : Game) (q : List (Entity × Option RigidBody)) :
    ∀ init : List (List Entity), init.length = game.n_rows →
      ∀ r : ℕ, r < game.n_rows →
        (q.foldl (bucketStep game) init).getD r []
          = init.getD r [] ++ restingInRow game q r := by
  induction q with
  | nil => intro init _ r _; simp [restingInRow]
  | cons p q ih =>
    intro init hlen r hr
    rw [List.foldl_cons]
    rcases p with ⟨e, o⟩
    cases o with
    | none =>
      rw [show bucketStep game init (e, none) = init from rfl,
        ih init hlen r hr]
      simp [restingInRow, resting_row]
    | some rb =>
      by_cases hs : rb.sleeping = false
      · rw [show bucketStep game init (e, some rb) = init by simp [bucketStep, hs],
          ih init hlen r hr]
        simp [restingInRow, resting_row, hs]
      · have hs' : rb.sleeping = true := by
          cases h : rb.sleeping
          · exact absurd h hs
          · rfl
        by_cases hin : 0 ≤ rowOf game rb ∧ rowOf game rb < (game.n_rows : ℤ)
        · have hstep : bucketStep game init (e, some rb)
              = init.set (rowOf game rb).toNat
                  (init.getD (rowOf game rb).toNat [] ++ [e]) := by
            simp [bucketStep, hs, hin]
          have hlen' : (init.set (rowOf game rb).toNat
              (init.getD (rowOf game rb).toNat [] ++ [e])).length = game.n_rows := by
            rw [List.length_set]; exact hlen
          rw [hstep, ih _ hlen' r hr]
          by_cases hrow : rowOf game rb = (r : ℤ)
          · have htn : (rowOf game rb).toNat = r := by omega
            rw [htn] at *
            rw [getD_set_self (by omega)]
            have : restingInRow game ((e, some rb) :: q) r
                = e :: restingInRow game q r := by
              simp [restingInRow, resting_row, hs', hrow]
            rw [this, List.append_assoc]
            rfl
          · have htn : (rowOf game rb).toNat ≠ r := by omega
            rw [getD_set_ne htn]
            have : restingInRow game ((e, some rb) :: q) r
                = restingInRow game q r := by
              have : (rowOf game rb == (r : ℤ)) = false := by
                simp [hrow]
              simp [restingInRow, resting_row, hs', this]
            rw [this]
        · rw [show bucketStep game init (e, some rb) = init by
            simp [bucketStep, hs, hin], ih init hlen r hr]
          have hrow : rowOf game rb ≠ (r : ℤ) := by
            intro hc
            exact hin ⟨by omega, by omega⟩
          have : (rowOf game rb == (r : ℤ)) = false := by simp [hrow]
          simp [restingInRow, resting_row, hs', this]

/-- For every in-range row, the bucket built by `clear_filled_rows` is exactly
the resting blocks whose computed row index is that row. -/
lemma blocks_per_row_getD (game : Game) (q : List (Entity × Option RigidBody))
    (r : ℕ) (hr : r < game.n_rows) :
    (blocks_per_row game q).getD r [] = restingInRow game q r := by
  unfold blocks_per_row
  rw [foldl_bucketStep_getD game q _ (List.length_replicate _ _) r hr]
  have : (List.replicate game.n_rows ([] : List Entity)).getD r [] = [] := by
    rw [List.getD_eq_getElem?_getD, List.getElem?_replicate]
    split <;> rfl
  rw [this, List.nil_append]

lemma mem_restingInRow (game : Game) (q : List (Entity × Option RigidBody))
    (r : ℕ) (e : Entity) :
    e ∈ restingInRow game q r ↔
      ∃ rb, (e, some rb) ∈ q ∧ rb.sleeping = true ∧ rowOf game rb = (r : ℤ) := by
  unfold restingInRow
  rw [List.mem_map]
  constructor
  · rintro ⟨⟨e', o⟩, hmem, rfl⟩
    rw [List.mem_filter] at hmem
    cases o with
    | none => simp [resting_row] at hmem
    | some rb =>
      refine ⟨rb, hmem.1, ?_⟩
      have h := hmem.2
      simp [resting_row] at h
      exact ⟨h.1, h.2⟩
  · rintro ⟨rb, hmem, hs, hrow⟩
    exact ⟨(e, some rb), List.mem_filter.mpr ⟨hmem, by simp [resting_row, hs, hrow]⟩, rfl⟩

lemma clearStep_n_lanes (acc : Game × List Entity) (b : List Entity) :
    (clearStep acc b).1.n_lanes = acc.1.n_lanes := by
  unfold clearStep; split <;> rfl

lemma clearStep_n_rows (acc : Game × List Entity) (b : List Entity) :
    (clearStep acc b).1.n_rows = acc.1.n_rows := by
  unfold clearStep; split <;> rfl

lemma clearStep_blocks (acc : Game × List Entity) (b : List Entity) :
    (clearStep acc b).1.current_tetromino_blocks = acc.1.current_tetromino_blocks := by
  unfold clearStep; split <;> rfl

lemma clearStep_joints (acc : Game × List Entity) (b : List Entity) :
    (clearStep acc b).1.current_tetromino_joints = acc.1.current_tetromino_joints := by
  unfold clearStep; split <;> rfl

lemma clearStep_generated (acc : Game × List Entity) (b : List Entity) :
    (clearStep acc b).1.stats.generated_blocks = acc.1.stats.generated_blocks := by
  unfold clearStep; split <;> rfl

lemma clearStep_lost (acc : Game × List Entity) (b : List Entity) :
    (clearStep acc b).1.stats.lost_blocks = acc.1.stats.lost_blocks := by
  unfold clearStep; split <;> rfl

lemma clearStep_lost_tetromino (acc : Game × List Entity) (b : List Entity) :
    (clearStep acc b).1.stats.lost_tetromino = acc.1.stats.lost_tetromino := by
  unfold clearStep; split <;> rfl

lemma clearStep_cleared (acc : Game × List Entity) (b : List Entity) :
    (clearStep acc b).1.stats.cleared_blocks
      = acc.1.stats.cleared_blocks
        + (if b.length = acc.1.n_lanes then (acc.1.n_lanes : ℤ) else 0) := by
  unfold clearStep; split
  · rfl
  · simp

lemma clearStep_snd (acc : Game × List Entity) (b : List Entity) :
    (clearStep acc b).2
      = acc.2 ++ (if b.length = acc.1.n_lanes then b else []) := by
  unfold clearStep; split
  · rfl
  · simp

lemma foldl_clearStep_spec :
    ∀ (buckets : List (List Entity)) (acc : Game × List Entity),
      (buckets.foldl clearStep acc).1.n_lanes = acc.1.n_lanes
      ∧ (buckets.foldl clearStep acc).1.n_rows = acc.1.n_rows
      ∧ (buckets.foldl clearStep acc).1.current_tetromino_blocks
          = acc.1.current_tetromino_blocks
      ∧ (buckets.foldl clearStep acc).1.current_tetromino_joints
          = acc.1.current_tetromino_joints
      ∧ (buckets.foldl clearStep acc).1.stats.generated_blocks
          = acc.1.stats.generated_blocks
      ∧ (buckets.foldl clearStep acc).1.stats.lost_blocks = acc.1.stats.lost_blocks
      ∧ (buckets.foldl clearStep acc).1.stats.lost_tetromino
          = acc.1.stats.lost_tetromino
      ∧ (buckets.foldl clearStep acc).1.stats.cleared_blocks
          = acc.1.stats.cleared_blocks
            + (acc.1.n_lanes : ℤ)
              * ((buckets.countP (fun b => decide (b.length = acc.1.n_lanes))) : ℤ)
      ∧ (buckets.foldl clearStep acc).2
          = acc.2
            ++ (buckets.filter (fun b => decide (b.length = acc.1.n_lanes))).flatten := by
  intro buckets
  induction buckets with
  | nil => intro acc; simp
  | cons b bs ih =>
    intro acc
    obtain ⟨h1, h2, h3, h4, h5, h6, h7, h8, h9⟩ := ih (clearStep acc b)
    rw [List.foldl_cons]
    refine ⟨by rw [h1, clearStep_n_lanes], by rw [h2, clearStep_n_rows],
      by rw [h3, clearStep_blocks], by rw [h4, clearStep_joints],
      by rw [h5, clearStep_generated], by rw [h6, clearStep_lost],
      by rw [h7, clearStep_lost_tetromino], ?_, ?_⟩
    · rw [h8, clearStep_cleared]
      simp only [clearStep_n_lanes]
      rw [List.countP_cons]
      by_cases h : b.length = acc.1.n_lanes <;> simp [h] <;> push_cast <;> ring
    · rw [h9, clearStep_snd]
      simp only [clearStep_n_lanes]
      rw [List.filter_cons]
      by_cases h : b.length = acc.1.n_lanes <;> simp [h, List.append_assoc]

lemma clear_filled_rows_eq (game : Game) (q : List (Entity × Option RigidBody)) :
    clear_filled_rows game q = (blocks_per_row game q).foldl clearStep (game, []) := rfl

lemma clear_filled_rows_spec (game : Game) (q : List (Entity × Option RigidBody)) :
    (clear_filled_rows game q).1.n_lanes = game.n_lanes
    ∧ (clear_filled_rows game q).1.n_rows = game.n_rows
    ∧ (clear_filled_rows game q).1.current_tetromino_blocks
        = game.current_tetromino_blocks
    ∧ (clear_filled_rows game q).1.current_tetromino_joints
        = game.current_tetromino_joints
    ∧ (clear_filled_rows game q).1.stats.generated_blocks
        = game.stats.generated_blocks
    ∧ (clear_filled_rows game q).1.stats.lost_blocks = game.stats.lost_blocks
    ∧ (clear_filled_rows game q).1.stats.lost_tetromino = game.stats.lost_tetromino
    ∧ (clear_filled_rows game q).1.stats.cleared_blocks
        = game.stats.cleared_blocks + (game.n_lanes : ℤ) * (fullRowCount game q : ℤ)
    ∧ (clear_filled_rows game q).2
        = ((blocks_per_row game q).filter
            (fun b => decide (b.length = game.n_lanes))).flatten := by
  rw [clear_filled_rows_eq]
  obtain ⟨h1, h2, h3, h4, h5, h6, h7, h8, h9⟩ :=
    foldl_clearStep_spec (blocks_per_row game q) (game, [])
  exact ⟨h1, h2, h3, h4, h5, h6, h7, h8, by rw [h9]; simp⟩

/-- Membership in the despawn list of `clear_filled_rows`: an entity is
destroyed exactly when it lies in some in-range row bucket whose size equals
`n_lanes`. -/
lemma mem_clear_despawns (game : Game) (q : List (Entity × Option RigidBody))
    (e : Entity) :
    e ∈ (clear_filled_rows game q).2 ↔
      ∃ r : ℕ, r < game.n_rows
        ∧ (restingInRow game q r).length = game.n_lanes
        ∧ e ∈ restingInRow game q r := by
  rw [(clear_filled_rows_spec game q).2.2.2.2.2.2.2.2]
  rw [List.mem_flatten]
  constructor
  · rintro ⟨bkt, hbkt, hebkt⟩
    rw [List.mem_filter] at hbkt
    obtain ⟨hmem, hful⟩ := hbkt
    rw [List.mem_iff_getElem] at hmem
    obtain ⟨r, hrlen, hget⟩ := hmem
    rw [blocks_per_row_length] at hrlen
    have hgd : (blocks_per_row game q).getD r [] = bkt := by
      rw [List.getD_eq_getElem?_getD, List.getElem?_eq_getElem
        (by rw [blocks_per_row_length]; exact hrlen)]
      simp [hget]
    rw [blocks_per_row_getD game q r hrlen] at hgd
    refine ⟨r, hrlen, ?_, ?_⟩
    · rw [hgd]; exact of_decide_eq_true hful
    · rw [hgd]; exact hebkt
  · rintro ⟨r, hr, hful, he⟩
    refine ⟨restingInRow game q r, List.mem_filter.mpr ⟨?_, by simp [hful]⟩, he⟩
    rw [← blocks_per_row_getD game q r hr]
    rw [List.getD_eq_getElem?_getD, List.getElem?_eq_getElem
      (by rw [blocks_per_row_length]; exact hr)]
    exact List.getElem_mem _

lemma deathStep_n_lanes (limit : ℚ) (acc : Game × List Entity) (p : Entity × ℚ) :
    (deathStep limit acc p).1.n_lanes = acc.1.n_lanes := by
  unfold deathStep; split <;> rfl

lemma deathStep_n_rows (limit : ℚ) (acc : Game × List Entity) (p : Entity × ℚ) :
    (deathStep limit acc p).1.n_rows = acc.1.n_rows := by
  unfold deathStep; split <;> rfl

lemma deathStep_blocks (limit : ℚ) (acc : Game × List Entity) (p : Entity × ℚ) :
    (deathStep limit acc p).1.current_tetromino_blocks
      = acc.1.current_tetromino_blocks := by
  unfold deathStep; split <;> rfl

lemma deathStep_joints (limit : ℚ) (acc : Game × List Entity) (p : Entity × ℚ) :
    (deathStep limit acc p).1.current_tetromino_joints
      = acc.1.current_tetromino_joints := by
  unfold deathStep; split <;> rfl

lemma deathStep_generated (limit : ℚ) (acc : Game × List Entity) (p : Entity × ℚ) :
    (deathStep limit acc p).1.stats.generated_blocks
      = acc.1.stats.generated_blocks := by
  unfold deathStep
  split
  · by_cases hmem : p.1 ∈ acc.1.current_tetromino_blocks <;> simp [hmem]
  · rfl

lemma deathStep_cleared (limit : ℚ) (acc : Game × List Entity) (p : Entity × ℚ) :
    (deathStep limit acc p).1.stats.cleared_blocks
      = acc.1.stats.cleared_blocks := by
  unfold deathStep
  split
  · by_cases hmem : p.1 ∈ acc.1.current_tetromino_blocks <;> simp [hmem]
  · rfl

lemma deathStep_lost (limit : ℚ) (acc : Game × List Entity) (p : Entity × ℚ) :
    (deathStep limit acc p).1.stats.lost_blocks
      = acc.1.stats.lost_blocks + (if p.2 < limit then 1 else 0) := by
  unfold deathStep
  split
  · by_cases hmem : p.1 ∈ acc.1.current_tetromino_blocks <;> simp_all
  · simp_all

lemma deathStep_lost_tetromino (limit : ℚ) (acc : Game × List Entity) (p : Entity × ℚ) :
    (deathStep limit acc p).1.stats.lost_tetromino
      = (acc.1.stats.lost_tetromino
         || (decide (p.2 < limit)
             && decide (p.1 ∈ acc.1.current_tetromino_blocks))) := by
  unfold deathStep
  split
  · by_cases hmem : p.1 ∈ acc.1.current_tetromino_blocks <;> simp_all
  · simp_all

lemma deathStep_snd (limit : ℚ) (acc : Game × List Entity) (p : Entity × ℚ) :
    (deathStep limit acc p).2
      = acc.2 ++ (if p.2 < limit then [p.1] else []) := by
  unfold deathStep
  split
  · by_cases hmem : p.1 ∈ acc.1.current_tetromino_blocks <;> simp_all
  · simp_all

lemma foldl_deathStep_spec (limit : ℚ) :
    ∀ (blocks : List (Entity × ℚ)) (acc : Game × List Entity),
      (blocks.foldl (deathStep limit) acc).1.n_lanes = acc.1.n_lanes
      ∧ (blocks.foldl (deathStep limit) acc).1.n_rows = acc.1.n_rows
      ∧ (blocks.foldl (deathStep limit) acc).1.current_tetromino_blocks
          = acc.1.current_tetromino_blocks
      ∧ (blocks.foldl (deathStep limit) acc).1.current_tetromino_joints
          = acc.1.current_tetromino_joints
      ∧ (blocks.foldl (deathStep limit) acc).1.stats.generated_blocks
          = acc.1.stats.generated_blocks
      ∧ (blocks.foldl (deathStep limit) acc).1.stats.cleared_blocks
          = acc.1.stats.cleared_blocks
      ∧ (blocks.foldl (deathStep limit) acc).2
          = acc.2 ++ (blocks.filter (fun p => decide (p.2 < limit))).map Prod.fst
      ∧ (blocks.foldl (deathStep limit) acc).1.stats.lost_blocks
          = acc.1.stats.lost_blocks
            + ((blocks.filter (fun p => decide (p.2 < limit))).length : ℤ)
      ∧ (blocks.foldl (deathStep limit) acc).1.stats.lost_tetromino
          = (acc.1.stats.lost_tetromino
             || blocks.any (fun p =>
                  decide (p.2 < limit)
                  && decide (p.1 ∈ acc.1.current_tetromino_blocks))) := by
  intro blocks
  induction blocks with
  | nil => intro acc; simp
  | cons p ps ih =>
    intro acc
    obtain ⟨h1, h2, h3, h4, h5, h6, h7, h8, h9⟩ := ih (deathStep limit acc p)
    rw [List.foldl_cons]
    refine ⟨by rw [h1, deathStep_n_lanes], by rw [h2, deathStep_n_rows],
      by rw [h3, deathStep_blocks], by rw [h4, deathStep_joints],
      by rw [h5, deathStep_generated], by rw [h6, deathStep_cleared], ?_, ?_, ?_⟩
    · rw [h7, deathStep_snd]
      rw [List.filter_cons]
      by_cases hm : p.2 < limit <;> simp [hm, List.append_assoc]
    · rw [h8, deathStep_lost]
      rw [List.filter_cons]
      by_cases hm : p.2 < limit <;> simp [hm] <;> push_cast <;> omega
    · rw [h9, deathStep_lost_tetromino]
      simp only [deathStep_blocks]
      rw [List.any_cons]
      cases acc.1.stats.lost_tetromino <;>
        cases hb : (decide (p.2 < limit)
          && decide (p.1 ∈ acc.1.current_tetromino_blocks)) <;> simp [hb]

lemma block_death_detection_single (g : Game) (b : ℚ) (blocks : List (Entity × ℚ)) :
    block_death_detection g [b] blocks
      = blocks.foldl (deathStep (b - BLOCK_PX_SIZE * 2)) (g, []) := rfl

lemma spawn_blocks_toFinset (game : Game) (kind : TetrominoKind) (next : Entity) :
    (spawn_tetromino game kind next).game.current_tetromino_blocks
      = ((List.range kind.layout.coords.length).map (fun i => next + i)).toFinset := by
  show ((kind.layout.coords.enum.map _).map Prod.fst).toFinset = _
  rw [List.map_map]
  have hf : (Prod.fst ∘ fun p : ℕ × (ℤ × ℤ) =>
      (next + p.1, spawn_block_pos game ((game.n_lanes : ℤ) / 2 - 1 + p.2.1)
        ((game.n_rows : ℤ) - 1 + p.2.2)))
      = (fun i => next + i) ∘ Prod.fst := rfl
  rw [hf, ← List.map_map, List.enum_map_fst]

lemma spawn_blocks_card (game : Game) (kind : TetrominoKind) (next : Entity) :
    (spawn_tetromino game kind next).game.current_tetromino_blocks.card = 4 := by
  rw [spawn_blocks_toFinset]
  rw [List.toFinset_card_of_nodup
    ((List.nodup_range _).map (fun a b h => Nat.add_left_cancel h))]
  rw [List.length_map, List.length_range]
  cases kind <;> rfl

lemma spawn_generated (game : Game) (kind : TetrominoKind) (next : Entity) :
    (spawn_tetromino game kind next).game.stats.generated_blocks
      = game.stats.generated_blocks + 4 := by
  cases kind <;> rfl

lemma spawn_preserves (game : Game) (kind : TetrominoKind) (next : Entity) :
    (spawn_tetromino game kind next).game.n_lanes = game.n_lanes
    ∧ (spawn_tetromino game kind next).game.n_rows = game.n_rows
    ∧ (spawn_tetromino game kind next).game.stats.cleared_blocks
        = game.stats.cleared_blocks
    ∧ (spawn_tetromino game kind next).game.stats.lost_blocks = game.stats.lost_blocks
    ∧ (spawn_tetromino game kind next).game.stats.lost_tetromino
        = game.stats.lost_tetromino :=
  ⟨rfl, rfl, rfl, rfl, rfl⟩

lemma tetromino_sleep_detection_of_falling (game : Game)
    (q : List (Entity × Option RigidBody)) (kind : TetrominoKind) (next : Entity)
    (h : all_blocks_sleeping game q = false) :
    tetromino_sleep_detection game q kind next = ⟨game, [], [], false, next⟩ := by
  unfold tetromino_sleep_detection
  rw [h]
  rfl

lemma tetromino_sleep_detection_of_sleeping (game : Game)
    (q : List (Entity × Option RigidBody)) (kind : TetrominoKind) (next : Entity)
    (h : all_blocks_sleeping game q = true) :
    tetromino_sleep_detection game q kind next
      = if (clear_filled_rows game q).1.stats.health > 0 then
          ⟨(spawn_tetromino (clear_filled_rows game q).1 kind next).game,
           game.current_tetromino_joints, (clear_filled_rows game q).2, true,
           (spawn_tetromino (clear_filled_rows game q).1 kind next).next⟩
        else
          ⟨(clear_filled_rows game q).1, game.current_tetromino_joints,
           (clear_filled_rows game q).2, false, next⟩ := by
  unfold tetromino_sleep_detection
  rw [h]
  rfl

lemma health_of_lost {s : Stats} (h : s.lost_tetromino = true) : s.health = 0 := by
  unfold Stats.health
  rw [h]
  rfl

lemma health_le_one {s : Stats} (hl : 0 ≤ s.lost_blocks) (hc : 0 ≤ s.cleared_blocks) :
    s.health ≤ 1 := by
  unfold Stats.health
  split_ifs
  · norm_num
  · norm_num
  · norm_num
  · have : (0 : ℚ) ≤ (s.lost_blocks : ℚ) / (s.cleared_blocks : ℚ) :=
      div_nonneg (by exact_mod_cast hl) (by exact_mod_cast hc)
    linarith

lemma health_neg {s : Stats} (h1 : s.lost_tetromino = false)
    (h2 : 0 < s.cleared_blocks) (h3 : s.cleared_blocks < s.lost_blocks) :
    s.health < 0 := by
  unfold Stats.health
  rw [h1]
  rw [if_neg (by simp), if_neg (by omega)]
  have hc : (0 : ℚ) < (s.cleared_blocks : ℚ) := by exact_mod_cast h2
  have hlt : (1 : ℚ) < (s.lost_blocks : ℚ) / (s.cleared_blocks : ℚ) := by
    rw [lt_div_iff hc]
    have : (s.cleared_blocks : ℚ) < (s.lost_blocks : ℚ) := by exact_mod_cast h3
    linarith
  linarith

/-- Claim C3's description of the health computation, written as the claim
orders the cases. -/
def health_spec (s : Stats) : ℚ :=
  if s.lost_tetromino then 0
  else if s.cleared_blocks = 0 ∧ s.lost_blocks = 0 then 1
  else if s.cleared_blocks = 0 ∧ s.lost_blocks > 0 then 0
  else 1 - (s.lost_blocks : ℚ) / (s.cleared_blocks : ℚ)

lemma foldl_projections_spec (blocks : List (Entity × ℚ)) :
    ∀ (proj : List ℚ) (acc : Game × List Entity),
      (proj.foldl (fun acc bottom =>
          blocks.foldl (deathStep (bottom - BLOCK_PX_SIZE * 2)) acc) acc).1.n_lanes
        = acc.1.n_lanes
      ∧ (proj.foldl (fun acc bottom =>
          blocks.foldl (deathStep (bottom - BLOCK_PX_SIZE * 2)) acc) acc).1.n_rows
        = acc.1.n_rows
      ∧ (proj.foldl (fun acc bottom =>
          blocks.foldl (deathStep (bottom - BLOCK_PX_SIZE * 2)) acc)
            acc).1.current_tetromino_blocks
        = acc.1.current_tetromino_blocks
      ∧ (proj.foldl (fun acc bottom =>
          blocks.foldl (deathStep (bottom - BLOCK_PX_SIZE * 2)) acc)
            acc).1.current_tetromino_joints
        = acc.1.current_tetromino_joints
      ∧ (proj.foldl (fun acc bottom =>
          blocks.foldl (deathStep (bottom - BLOCK_PX_SIZE * 2)) acc)
            acc).1.stats.generated_blocks
        = acc.1.stats.generated_blocks
      ∧ (proj.foldl (fun acc bottom =>
          blocks.foldl (deathStep (bottom - BLOCK_PX_SIZE * 2)) acc)
            acc).1.stats.cleared_blocks
        = acc.1.stats.cleared_blocks
      ∧ (acc.1.stats.lost_tetromino = true →
          (proj.foldl (fun acc bottom =>
            blocks.foldl (deathStep (bottom - BLOCK_PX_SIZE * 2)) acc)
              acc).1.stats.lost_tetromino = true) := by
  intro proj
  induction proj with
  | nil => intro acc; exact ⟨rfl, rfl, rfl, rfl, rfl, rfl, fun h => h⟩
  | cons b bs ih =>
    intro acc
    rw [List.foldl_cons]
    obtain ⟨i1, i2, i3, i4, i5, i6, i7⟩ :=
      ih (blocks.foldl (deathStep (b - BLOCK_PX_SIZE * 2)) acc)
    obtain ⟨d1, d2, d3, d4, d5, d6, _, _, d9⟩ :=
      foldl_deathStep_spec (b - BLOCK_PX_SIZE * 2) blocks acc
    refine ⟨i1.trans d1, i2.trans d2, i3.trans d3, i4.trans d4, i5.trans d5,
      i6.trans d6, ?_⟩
    intro h
    exact i7 (by rw [d9, h, Bool.true_or])

lemma block_death_detection_preserves (g : Game) (proj : List ℚ)
    (blocks : List (Entity × ℚ)) :
    (block_death_detection g proj blocks).1.n_lanes = g.n_lanes
    ∧ (block_death_detection g proj blocks).1.n_rows = g.n_rows
    ∧ (block_death_detection g proj blocks).1.current_tetromino_blocks
        = g.current_tetromino_blocks
    ∧ (block_death_detection g proj blocks).1.current_tetromino_joints
        = g.current_tetromino_joints
    ∧ (block_death_detection g proj blocks).1.stats.generated_blocks
        = g.stats.generated_blocks
    ∧ (block_death_detection g proj blocks).1.stats.cleared_blocks
        = g.stats.cleared_blocks
    ∧ (g.stats.lost_tetromino = true →
        (block_death_detection g proj blocks).1.stats.lost_tetromino = true) :=
  foldl_projections_spec blocks proj (g, [])

lemma game_tick_fst (proj : List ℚ) (blocks : List (Entity × ℚ))
    (q : List (Entity × Option RigidBody)) (kind : TetrominoKind)
    (g : Game) (next : Entity) :
    (game_tick proj blocks q kind g next).1
      = (tetromino_sleep_detection (block_death_detection g proj blocks).1
          q kind next).game := rfl

/-! ### Concrete states used by the witnesses -/

/-- A mid-game state: one spawned piece, nothing cleared or lost. -/
def pieceGame : Game := ⟨10, 20, ⟨4, 0, 0, false⟩, {0, 1, 2, 3}, [7, 8, 9]⟩

/-- Physics view with three resting blocks and one still falling. -/
def threeRestingQuery : List (Entity × Option RigidBody) :=
  [(0, some ⟨true, -(19 : ℚ) / 2⟩), (1, some ⟨true, -(17 : ℚ) / 2⟩),
   (2, some ⟨true, -(15 : ℚ) / 2⟩), (3, some ⟨false, -(13 : ℚ) / 2⟩)]

/-- A four-lane board whose active piece has come to rest filling row 0. -/
def fullRowGame : Game := ⟨4, 20, ⟨4, 0, 0, false⟩, {0, 1, 2, 3}, [7, 8, 9]⟩

/-- Physics view with the four blocks resting side by side in row 0. -/
def fullRowQuery : List (Entity × Option RigidBody) :=
  [(0, some ⟨true, -(19 : ℚ) / 2⟩), (1, some ⟨true, -(19 : ℚ) / 2⟩),
   (2, some ⟨true, -(19 : ℚ) / 2⟩), (3, some ⟨true, -(19 : ℚ) / 2⟩)]

/-- A game-over state: the active piece was lost (and one block before it). -/
def lostGame : Game := ⟨8, 20, ⟨8, 0, 1, true⟩, {0, 1, 2, 3}, [7, 8, 9]⟩

/-- A state with zero health but the active piece still on the board:
nothing cleared yet, one placed block lost, piece itself intact. -/
def stuckGame : Game := ⟨10, 20, ⟨8, 0, 1, false⟩, {0, 1, 2, 3}, [7, 8, 9]⟩

/-- Physics view with the four active blocks resting in rows 0 to 3. -/
def restingQuery : List (Entity × Option RigidBody) :=
  [(0, some ⟨true, -(19 : ℚ) / 2⟩), (1, some ⟨true, -(17 : ℚ) / 2⟩),
   (2, some ⟨true, -(15 : ℚ) / 2⟩), (3, some ⟨true, -(13 : ℚ) / 2⟩)]

/-! ### Claims -/

/-- Claim C1: settle detection fires exactly when every block of the active
piece resolves to a sleeping rigid body (a failed entity or handle lookup
counts as not resting); only then are all of the piece's joints despawned,
row clearing invoked, and a new piece spawned exactly when health > 0
afterwards; when at least one block is not resting, the tick leaves the game
unchanged and issues no joint despawns, no clearing, and no spawn. -/
theorem claim_C1_settle_iff (game : Game) (q : List (Entity × Option RigidBody))
    (kind : TetrominoKind) (next : Entity) :
    (all_blocks_sleeping game q = true ↔
      ∀ e ∈ game.current_tetromino_blocks,
        ∃ rb, rb_lookup q e = some rb ∧ rb.sleeping = true)
    ∧ (all_blocks_sleeping game q = true →
        (tetromino_sleep_detection game q kind next).joint_despawns
            = game.current_tetromino_joints
        ∧ (tetromino_sleep_detection game q kind next).cleared_despawns
            = (clear_filled_rows game q).2
        ∧ (tetromino_sleep_detection game q kind next).game.stats.cleared_blocks
            = (clear_filled_rows game q).1.stats.cleared_blocks
        ∧ ((tetromino_sleep_detection game q kind next).spawned = true
            ↔ (clear_filled_rows game q).1.stats.health > 0))
    ∧ (all_blocks_sleeping game q = false →
        tetromino_sleep_detection game q kind next = ⟨game, [], [], false, next⟩) := by
  refine ⟨all_blocks_sleeping_iff game q, ?_,
    tetromino_sleep_detection_of_falling game q kind next⟩
  intro h
  rw [tetromino_sleep_detection_of_sleeping game q kind next h]
  by_cases hh : (clear_filled_rows game q).1.stats.health > 0
  · rw [if_pos hh]
    exact ⟨rfl, rfl, (spawn_preserves _ kind next).2.2.1, by simp [hh]⟩
  · rw [if_neg hh]
    exact ⟨rfl, rfl, rfl, by simp [hh]⟩

/-- Witness for C1: with three resting blocks and one still falling, settle
does not fire and the tick does nothing. -/
theorem claim_C1_witness :
    tetromino_sleep_detection pieceGame threeRestingQuery TetrominoKind.I 50
      = ⟨pieceGame, [], [], false, 50⟩ :=
  (claim_C1_settle_iff pieceGame threeRestingQuery TetrominoKind.I 50).2.2 (by decide)

/-- Claim C2: with all entities of the query distinct, a resting block of an
in-range row is despawned by `clear_filled_rows` exactly when its row holds
exactly `n_lanes` resting blocks (so an `n_lanes - 1` row is left alone and
every simultaneously full row is cleared in the same pass);
`cleared_blocks` grows by `n_lanes` for each full row; and a non-resting
block is never counted toward any row. -/
theorem claim_C2_row_clearing (game : Game) (q : List (Entity × Option RigidBody))
    (hnd : (q.map Prod.fst).Nodup) (r : ℕ) (hr : r < game.n_rows) :
    (∀ e ∈ restingInRow game q r,
       (e ∈ (clear_filled_rows game q).2
        ↔ (restingInRow game q r).length = game.n_lanes))
    ∧ (clear_filled_rows game q).1.stats.cleared_blocks
        = game.stats.cleared_blocks + (game.n_lanes : ℤ) * (fullRowCount game q : ℤ)
    ∧ (∀ e rb r', (e, some rb) ∈ q → rb.sleeping = false →
        e ∉ restingInRow game q r') := by
  refine ⟨?_, (clear_filled_rows_spec game q).2.2.2.2.2.2.2.1, ?_⟩
  · intro e he
    constructor
    · intro hdead
      obtain ⟨r', hr', hful', he'⟩ := (mem_clear_despawns game q e).mp hdead
      obtain ⟨rb, hq, _, hrow⟩ := (mem_restingInRow game q r e).mp he
      obtain ⟨rb', hq', _, hrow'⟩ := (mem_restingInRow game q r' e).mp he'
      have heq : rb = rb' :=
        Option.some.inj (snd_eq_of_nodup_fst hnd hq hq')
      rw [← heq] at hrow'
      have : r = r' := by omega
      rw [this]
      exact hful'
    · intro hful
      exact (mem_clear_despawns game q e).mpr ⟨r, hr, hful, he⟩
  · intro e rb r' hq hs he
    obtain ⟨rb', hq', hs', _⟩ := (mem_restingInRow game q r' e).mp he
    have heq : rb = rb' := Option.some.inj (snd_eq_of_nodup_fst hnd hq hq')
    rw [← heq] at hs'
    rw [hs] at hs'
    cases hs'

/-- Witness for C2 on a four-lane board whose row 0 holds exactly four
resting blocks. -/
theorem claim_C2_witness :
    (∀ e ∈ restingInRow fullRowGame fullRowQuery 0,
       (e ∈ (clear_filled_rows fullRowGame fullRowQuery).2
        ↔ (restingInRow fullRowGame fullRowQuery 0).length = fullRowGame.n_lanes))
    ∧ (clear_filled_rows fullRowGame fullRowQuery).1.stats.cleared_blocks
        = fullRowGame.stats.cleared_blocks
          + (fullRowGame.n_lanes : ℤ) * (fullRowCount fullRowGame fullRowQuery : ℤ)
    ∧ (∀ e rb r', (e, some rb) ∈ fullRowQuery → rb.sleeping = false →
        e ∉ restingInRow fullRowGame fullRowQuery r') :=
  claim_C2_row_clearing fullRowGame fullRowQuery (by decide) 0 (by decide)

/-- Claim C3: the health computation returns 0 on a lost piece, else 1 when
nothing was cleared and nothing lost, else 0 when nothing was cleared but
something lost, else 1 minus the lost/cleared ratio — the case order of the
claim agrees with the source's nested branches on every input. -/
theorem claim_C3_health_formula : ∀ s : Stats, s.health = health_spec s := by
  intro s
  unfold Stats.health health_spec
  by_cases h1 : s.lost_tetromino
  · simp [h1]
  · by_cases h2 : s.cleared_blocks = 0
    · by_cases h3 : s.lost_blocks > 0
      · have h4 : ¬ (s.cleared_blocks = 0 ∧ s.lost_blocks = 0) := by omega
        have h5 : s.lost_blocks ≠ 0 := by omega
        simp [h1, h2, h3, h4, h5]
      · by_cases h5 : s.lost_blocks = 0
        · simp [h1, h2, h3, h5]
        · have h6 : ¬ (s.cleared_blocks = 0 ∧ s.lost_blocks = 0) := by omega
          simp [h1, h2, h3, h6]
    · have h7 : ¬ (s.cleared_blocks = 0 ∧ s.lost_blocks = 0) := by omega
      have h8 : ¬ (s.cleared_blocks = 0 ∧ s.lost_blocks > 0) := by omega
      simp [h1, h2, h7, h8]

/-- Claim C4 counterexample: the claimed game-over timer and auto-restart do
not exist. From a state whose active piece has been lost (stats
`⟨8, 0, 1, true⟩`), three hundred consecutive ticks — far beyond any
3-time-unit grace threshold — leave the stats untouched: no blocks are
destroyed, the stats are never reset to their initial values, and
`generated_blocks` still reads 8, not 4. -/
theorem claim_C4_counterexample :
    ((fun p : Game × Entity =>
        game_tick [-300] [] [] TetrominoKind.I p.1 p.2)^[300]
      (lostGame, 50)) = (lostGame, 50)
    ∧ lostGame.stats.lost_tetromino = true
    ∧ lostGame.stats.generated_blocks = 8
    ∧ lostGame.stats ≠ Stats.default := by
  have hfix : (fun p : Game × Entity =>
      game_tick [-300] [] [] TetrominoKind.I p.1 p.2) (lostGame, 50)
        = (lostGame, 50) := by decide
  exact ⟨Function.iterate_fixed hfix 300, rfl, rfl, by decide⟩

/-- Claim C4 amended: once the active piece has been lost, `lost_tetromino`
stays set on every subsequent tick, no new piece is ever spawned, and
`generated_blocks` never changes — the code has no game-over timer, no board
reset, and no automatic restart. -/
theorem claim_C4_no_restart (proj : List ℚ) (blocks : List (Entity × ℚ))
    (q : List (Entity × Option RigidBody)) (kind : TetrominoKind)
    (g : Game) (next : Entity) (h : g.stats.lost_tetromino = true) :
    (game_tick proj blocks q kind g next).1.stats.lost_tetromino = true
    ∧ (game_tick proj blocks q kind g next).1.stats.generated_blocks
        = g.stats.generated_blocks
    ∧ (tetromino_sleep_detection (block_death_detection g proj blocks).1
        q kind next).spawned = false := by
  have hd := block_death_detection_preserves g proj blocks
  have hdlost : (block_death_detection g proj blocks).1.stats.lost_tetromino = true :=
    hd.2.2.2.2.2.2 h
  have hdgen : (block_death_detection g proj blocks).1.stats.generated_blocks
      = g.stats.generated_blocks := hd.2.2.2.2.1
  rw [game_tick_fst]
  cases hs : all_blocks_sleeping (block_death_detection g proj blocks).1 q
  · rw [tetromino_sleep_detection_of_falling _ q kind next hs]
    exact ⟨hdlost, hdgen, rfl⟩
  · rw [tetromino_sleep_detection_of_sleeping _ q kind next hs]
    have hc := clear_filled_rows_spec (block_death_detection g proj blocks).1 q
    have hclost : (clear_filled_rows (block_death_detection g proj blocks).1
        q).1.stats.lost_tetromino = true := by
      rw [hc.2.2.2.2.2.2.1]
      exact hdlost
    have hh : ¬ ((clear_filled_rows (block_death_detection g proj blocks).1
        q).1.stats.health > 0) := by
      rw [health_of_lost hclost]
      norm_num
    rw [if_neg hh]
    refine ⟨hclost, ?_, rfl⟩
    rw [hc.2.2.2.2.1]
    exact hdgen

/-- Witness for the amended C4 on the concrete lost state. -/
theorem claim_C4_witness :
    (game_tick [-300] [] restingQuery TetrominoKind.I lostGame 50).1.stats.lost_tetromino
        = true
    ∧ (game_tick [-300] [] restingQuery TetrominoKind.I
        lostGame 50).1.stats.generated_blocks = lostGame.stats.generated_blocks
    ∧ (tetromino_sleep_detection
        (block_death_detection lostGame [-300] []).1
        restingQuery TetrominoKind.I 50).spawned = false :=
  claim_C4_no_restart [-300] [] restingQuery TetrominoKind.I lostGame 50 (by decide)

/-- Claim C5 counterexample: health is not clamped to [0, 1]. In a reachable
kind of state — one ten-lane row cleared, ten placed blocks already lost, the
active piece intact — a tick in which one more placed block (entity 90, far
below the viewport) is destroyed leaves `lost_blocks = 11 > cleared_blocks
= 10` and the computed health is strictly negative. -/
theorem claim_C5_counterexample :
    (game_tick [0] [(90, -100)] [(0, some ⟨false, 0⟩)] TetrominoKind.I
        ⟨10, 20, ⟨40, 10, 10, false⟩, {0, 1, 2, 3}, [7, 8, 9]⟩
        50).1.stats.health < 0 := by
  decide

/-- Claim C5 amended: with nonnegative counters health never exceeds 1 and is
0 once the active piece is lost, but it is not clamped below: whenever some
row has been cleared, the piece is not lost, and more blocks were lost than
cleared, health is strictly negative. -/
theorem claim_C5_health_bounds (s : Stats) (hl : 0 ≤ s.lost_blocks)
    (hc : 0 ≤ s.cleared_blocks) :
    s.health ≤ 1
    ∧ (s.lost_tetromino = true → s.health = 0)
    ∧ (s.lost_tetromino = false → 0 < s.cleared_blocks →
        s.cleared_blocks < s.lost_blocks → s.health < 0) :=
  ⟨health_le_one hl hc, fun h => health_of_lost h,
   fun h1 h2 h3 => health_neg h1 h2 h3⟩

/-- Witness for the amended C5 at the stats of the counterexample tick. -/
theorem claim_C5_witness :
    Stats.health ⟨40, 10, 11, false⟩ ≤ 1
    ∧ ((⟨40, 10, 11, false⟩ : Stats).lost_tetromino = true →
        Stats.health ⟨40, 10, 11, false⟩ = 0)
    ∧ ((⟨40, 10, 11, false⟩ : Stats).lost_tetromino = false →
        0 < (⟨40, 10, 11, false⟩ : Stats).cleared_blocks →
        (⟨40, 10, 11, false⟩ : Stats).cleared_blocks
          < (⟨40, 10, 11, false⟩ : Stats).lost_blocks →
        Stats.health ⟨40, 10, 11, false⟩ < 0) :=
  claim_C5_health_bounds ⟨40, 10, 11, false⟩ (by decide) (by decide)

/-- Claim C6: spawning registers exactly 4 distinct block entities as the
active piece, and a tick maps any state whose active-block set has size 4 to
a state whose active-block set again has size 4. -/
theorem claim_C6_active_piece_size (g : Game) (kind : TetrominoKind)
    (next : Entity) (proj : List ℚ) (blocks : List (Entity × ℚ))
    (q : List (Entity × Option RigidBody))
    (h : g.current_tetromino_blocks.card = 4) :
    (spawn_tetromino g kind next).game.current_tetromino_blocks.card = 4
    ∧ (game_tick proj blocks q kind g next).1.current_tetromino_blocks.card = 4 := by
  refine ⟨spawn_blocks_card g kind next, ?_⟩
  rw [game_tick_fst]
  have hdb : (block_death_detection g proj blocks).1.current_tetromino_blocks
      = g.current_tetromino_blocks :=
    (block_death_detection_preserves g proj blocks).2.2.1
  cases hs : all_blocks_sleeping (block_death_detection g proj blocks).1 q
  · rw [tetromino_sleep_detection_of_falling _ q kind next hs]
    show (block_death_detection g proj blocks).1.current_tetromino_blocks.card = 4
    rw [hdb]
    exact h
  · rw [tetromino_sleep_detection_of_sleeping _ q kind next hs]
    by_cases hh : (clear_filled_rows (block_death_detection g proj blocks).1
        q).1.stats.health > 0
    · rw [if_pos hh]
      exact spawn_blocks_card _ kind next
    · rw [if_neg hh]
      show (clear_filled_rows (block_death_detection g proj blocks).1
        q).1.current_tetromino_blocks.card = 4
      rw [(clear_filled_rows_spec _ q).2.2.1, hdb]
      exact h

/-- Witness for C6 on a concrete mid-game state. -/
theorem claim_C6_witness :
    (spawn_tetromino pieceGame TetrominoKind.T 50).game.current_tetromino_blocks.card
        = 4
    ∧ (game_tick [0] [] threeRestingQuery TetrominoKind.T
        pieceGame 50).1.current_tetromino_blocks.card = 4 :=
  claim_C6_active_piece_size pieceGame TetrominoKind.T 50 [0] []
    threeRestingQuery (by decide)

/-- Claim C7 counterexample: a block exactly one block unit below the
viewport's lower bound (here bound 0, block at -BLOCK_PX_SIZE) is *not*
removed by `block_death_detection` — the despawn list is empty and the stats
are untouched — refuting "a block one unit below the bound is always
removed": the actual removal boundary is two block units below the bound. -/
theorem claim_C7_counterexample :
    ((0 : ℚ) - BLOCK_PX_SIZE < 0)
    ∧ block_death_detection Game.default [0] [(7, (0 : ℚ) - BLOCK_PX_SIZE)]
        = (Game.default, []) :=
  ⟨by decide, by decide⟩

/-- Claim C7 amended: with distinct block entities, a block at or above the
viewport's lower bound is never removed; a block strictly below the bound
minus two block units (`bottom - BLOCK_PX_SIZE * 2`) is always removed; each
removal increments `lost_blocks` by exactly 1; and game-over is marked
exactly when a removed block belongs to the active piece (or was marked
before). -/
theorem claim_C7_loss_boundary (g : Game) (b : ℚ) (blocks : List (Entity × ℚ))
    (hnd : (blocks.map Prod.fst).Nodup) :
    (∀ e y, (e, y) ∈ blocks → b ≤ y →
        e ∉ (block_death_detection g [b] blocks).2)
    ∧ (∀ e y, (e, y) ∈ blocks → y < b - BLOCK_PX_SIZE * 2 →
        e ∈ (block_death_detection g [b] blocks).2)
    ∧ (block_death_detection g [b] blocks).1.stats.lost_blocks
        = g.stats.lost_blocks + ((block_death_detection g [b] blocks).2.length : ℤ)
    ∧ ((block_death_detection g [b] blocks).1.stats.lost_tetromino = true
        ↔ (g.stats.lost_tetromino = true
           ∨ ∃ p ∈ blocks, p.2 < b - BLOCK_PX_SIZE * 2
               ∧ p.1 ∈ g.current_tetromino_blocks)) := by
  obtain ⟨_, _, _, _, _, _, h7, h8, h9⟩ :=
    foldl_deathStep_spec (b - BLOCK_PX_SIZE * 2) blocks (g, [])
  rw [block_death_detection_single g b blocks]
  refine ⟨?_, ?_, ?_, ?_⟩
  · rintro e y hmem hge hin
    rw [h7] at hin
    simp only [List.nil_append] at hin
    obtain ⟨⟨pe, py⟩, hp, hpe⟩ := List.mem_map.mp hin
    obtain ⟨hpb, hplt⟩ := List.mem_filter.mp hp
    simp only at hpe
    subst hpe
    have hy : py = y := snd_eq_of_nodup_fst hnd hpb hmem
    subst hy
    rw [decide_eq_true_eq] at hplt
    simp only at hplt
    have hb30 : (0 : ℚ) < BLOCK_PX_SIZE * 2 := by norm_num [BLOCK_PX_SIZE]
    linarith
  · intro e y hmem hlt
    rw [h7]
    simp only [List.nil_append]
    exact List.mem_map.mpr
      ⟨(e, y), List.mem_filter.mpr ⟨hmem, decide_eq_true hlt⟩, rfl⟩
  · rw [h8, h7]
    simp [List.length_map]
  · rw [h9]
    simp only [Bool.or_eq_true, List.any_eq_true, Bool.and_eq_true,
      decide_eq_true_eq]

/-- Witness for the amended C7 with one block far below the boundary and one
above the bound. -/
theorem claim_C7_witness :
    (∀ e y, (e, y) ∈ [((7 : Entity), (-100 : ℚ)), (8, 5)] → (0 : ℚ) ≤ y →
        e ∉ (block_death_detection Game.default [0]
              [((7 : Entity), (-100 : ℚ)), (8, 5)]).2)
    ∧ (∀ e y, (e, y) ∈ [((7 : Entity), (-100 : ℚ)), (8, 5)] →
        y < 0 - BLOCK_PX_SIZE * 2 →
        e ∈ (block_death_detection Game.default [0]
              [((7 : Entity), (-100 : ℚ)), (8, 5)]).2)
    ∧ (block_death_detection Game.default [0]
        [((7 : Entity), (-100 : ℚ)), (8, 5)]).1.stats.lost_blocks
        = Game.default.stats.lost_blocks
          + ((block_death_detection Game.default [0]
              [((7 : Entity), (-100 : ℚ)), (8, 5)]).2.length : ℤ)
    ∧ ((block_death_detection Game.default [0]
        [((7 : Entity), (-100 : ℚ)), (8, 5)]).1.stats.lost_tetromino = true
        ↔ (Game.default.stats.lost_tetromino = true
           ∨ ∃ p ∈ [((7 : Entity), (-100 : ℚ)), (8, 5)],
               p.2 < 0 - BLOCK_PX_SIZE * 2
               ∧ p.1 ∈ Game.default.current_tetromino_blocks)) :=
  claim_C7_loss_boundary Game.default 0 [((7 : Entity), (-100 : ℚ)), (8, 5)]
    (by decide)

/-- Claim C8: the row index of a resting block is computed as
`⌊block.y - floor_y⌋` from the block's center height, and a resting block
whose row index falls outside `[0, n_rows)` is discarded: it lands in no row
bucket and is never despawned by row clearing — neither clamped nor an
error. -/
theorem claim_C8_row_index_discard (g : Game) (q : List (Entity × Option RigidBody))
    (hnd : (q.map Prod.fst).Nodup) (e : Entity) (rb : RigidBody)
    (hq : (e, some rb) ∈ q) (hs : rb.sleeping = true)
    (hout : rowOf g rb < 0 ∨ (g.n_rows : ℤ) ≤ rowOf g rb) :
    rowOf g rb = ⌊rb.y - g.floor_y⌋
    ∧ (∀ r, r < g.n_rows → e ∉ restingInRow g q r)
    ∧ e ∉ (clear_filled_rows g q).2 := by
  have hnot : ∀ r, r < g.n_rows → e ∉ restingInRow g q r := by
    intro r hr hin
    obtain ⟨rb', hq', _, hrow'⟩ := (mem_restingInRow g q r e).mp hin
    have heq : rb = rb' := Option.some.inj (snd_eq_of_nodup_fst hnd hq hq')
    rw [← heq] at hrow'
    omega
  refine ⟨rfl, hnot, fun hin => ?_⟩
  obtain ⟨r, hr, _, he⟩ := (mem_clear_despawns g q e).mp hin
  exact hnot r hr he

/-- Witness for C8: a sleeping block drifted to height 30 on the default
board has row index 40 ∉ [0, 20) and is ignored by row clearing. -/
theorem claim_C8_witness :
    rowOf Game.default ⟨true, 30⟩ = ⌊(30 : ℚ) - Game.default.floor_y⌋
    ∧ (∀ r, r < Game.default.n_rows →
        5 ∉ restingInRow Game.default [(5, some ⟨true, 30⟩)] r)
    ∧ 5 ∉ (clear_filled_rows Game.default [(5, some ⟨true, 30⟩)]).2 :=
  claim_C8_row_index_discard Game.default [(5, some ⟨true, 30⟩)] (by decide)
    5 ⟨true, 30⟩ (by decide) rfl (by decide)

/-- Claim C9: the lateral input is a signed value among -1, 0 and 1; on a tick
with nonzero lateral input every active-piece block whose rigid body
resolves receives the same force `(lateral * MOVEMENT_FORCE, 0)`, of
constant magnitude `MOVEMENT_FORCE`; nonzero spin input likewise applies the
same constant torque to every such block; zero lateral input applies no
force; and with no active piece the controller does nothing and raises no
error. -/
theorem claim_C9_movement (input : InputState) (g : Game)
    (q : List (Entity × Option RigidBody)) (e : Entity) :
    (lateral_movement input = 1 ∨ lateral_movement input = 0
      ∨ lateral_movement input = -1)
    ∧ (lateral_movement input ≠ 0 → e ∈ g.current_tetromino_blocks →
        (rb_lookup q e).isSome = true →
        (tetromino_movement input g q e).1
          = some ((lateral_movement input : ℚ) * MOVEMENT_FORCE, 0)
        ∧ |(lateral_movement input : ℚ) * MOVEMENT_FORCE| = MOVEMENT_FORCE)
    ∧ (torque_input input ≠ 0 → e ∈ g.current_tetromino_blocks →
        (rb_lookup q e).isSome = true →
        (tetromino_movement input g q e).2
          = some ((torque_input input : ℚ) * TORQUE))
    ∧ (lateral_movement input = 0 → (tetromino_movement input g q e).1 = none)
    ∧ (g.current_tetromino_blocks = ∅ →
        tetromino_movement input g q e = (none, none)) := by
  have hrange : lateral_movement input = 1 ∨ lateral_movement input = 0
      ∨ lateral_movement input = -1 := by
    unfold lateral_movement
    rcases input with ⟨l, r, a, d⟩
    cases l <;> cases r <;> simp
  refine ⟨hrange, ?_, ?_, ?_, ?_⟩
  · intro hlat hmem hsome
    unfold tetromino_movement
    rw [if_pos hmem]
    cases hl : rb_lookup q e with
    | none => rw [hl] at hsome; cases hsome
    | some rb =>
      constructor
      · simp [hlat]
      · rcases hrange with h | h | h
        · rw [h]
          show |((1 : ℤ) : ℚ) * MOVEMENT_FORCE| = MOVEMENT_FORCE
          norm_num [MOVEMENT_FORCE]
        · exact absurd h hlat
        · rw [h]
          show |((-1 : ℤ) : ℚ) * MOVEMENT_FORCE| = MOVEMENT_FORCE
          norm_num [MOVEMENT_FORCE]
  · intro htor hmem hsome
    unfold tetromino_movement
    rw [if_pos hmem]
    cases hl : rb_lookup q e with
    | none => rw [hl] at hsome; cases hsome
    | some rb => simp [htor]
  · intro hlat
    unfold tetromino_movement
    by_cases hmem : e ∈ g.current_tetromino_blocks
    · rw [if_pos hmem]
      cases hl : rb_lookup q e with
      | none => rfl
      | some rb => simp [hlat]
    · rw [if_neg hmem]
  · intro hempty
    unfold tetromino_movement
    rw [if_neg (by rw [hempty]; exact Finset.not_mem_empty e)]

/-- Witness for C9: pressing only Right pushes block 0 of the active piece
with the constant rightward force. -/
theorem claim_C9_witness :
    (tetromino_movement ⟨false, true, false, false⟩ pieceGame
        [(0, some ⟨false, 0⟩)] 0).1
      = some ((lateral_movement ⟨false, true, false, false⟩ : ℚ)
          * MOVEMENT_FORCE, 0) :=
  ((claim_C9_movement ⟨false, true, false, false⟩ pieceGame
      [(0, some ⟨false, 0⟩)] 0).2.1 (by decide) (by decide) (by decide)).1

/-- Claim C10: when every active block is sleeping but the post-clear health
is not positive, no new piece is spawned, the settled blocks stay registered
as the active piece and the joint list is kept; the same joint-despawn
commands are issued, and on any later tick on which the blocks are again all
sleeping the settle handler fires again, re-issuing despawns for the very
same joint entities and re-running row clearing. -/
theorem claim_C10_game_over_loop (g : Game)
    (q q' : List (Entity × Option RigidBody)) (kind kind' : TetrominoKind)
    (next next' : Entity)
    (hs : all_blocks_sleeping g q = true)
    (hh : (clear_filled_rows g q).1.stats.health ≤ 0) :
    (tetromino_sleep_detection g q kind next).spawned = false
    ∧ (tetromino_sleep_detection g q kind next).game.current_tetromino_blocks
        = g.current_tetromino_blocks
    ∧ (tetromino_sleep_detection g q kind next).game.current_tetromino_joints
        = g.current_tetromino_joints
    ∧ (tetromino_sleep_detection g q kind next).joint_despawns
        = g.current_tetromino_joints
    ∧ (all_blocks_sleeping (tetromino_sleep_detection g q kind next).game q'
          = true →
        (tetromino_sleep_detection (tetromino_sleep_detection g q kind next).game
            q' kind' next').joint_despawns = g.current_tetromino_joints
        ∧ (tetromino_sleep_detection (tetromino_sleep_detection g q kind next).game
            q' kind' next').cleared_despawns
            = (clear_filled_rows
                (tetromino_sleep_detection g q kind next).game q').2) := by
  rw [tetromino_sleep_detection_of_sleeping g q kind next hs]
  rw [if_neg (not_lt.mpr hh)]
  have hc := clear_filled_rows_spec g q
  refine ⟨rfl, hc.2.2.1, hc.2.2.2.1, rfl, ?_⟩
  intro hs'
  rw [tetromino_sleep_detection_of_sleeping _ q' kind' next' hs']
  by_cases hh' : (clear_filled_rows (clear_filled_rows g q).1 q').1.stats.health > 0
  · rw [if_pos hh']
    exact ⟨hc.2.2.2.1, rfl⟩
  · rw [if_neg hh']
    exact ⟨hc.2.2.2.1, rfl⟩

/-- Witness for C10: a board with zero health (one lost block, nothing
cleared) whose four active blocks have all come to rest. -/
theorem claim_C10_witness :
    (tetromino_sleep_detection stuckGame restingQuery TetrominoKind.I 50).spawned
        = false
    ∧ (tetromino_sleep_detection stuckGame restingQuery TetrominoKind.I
        50).game.current_tetromino_blocks = stuckGame.current_tetromino_blocks
    ∧ (tetromino_sleep_detection stuckGame restingQuery TetrominoKind.I
        50).joint_despawns = stuckGame.current_tetromino_joints := by
  have h := claim_C10_game_over_loop stuckGame restingQuery restingQuery
    TetrominoKind.I TetrominoKind.I 50 60 (by decide) (by decide)
  exact ⟨h.1, h.2.1, h.2.2.2.1⟩

end NewtonianTetris



